import Mathlib

/-
Verification of the quoting application core (database.py, analytics.py,
ml_quickstart.py, alerts_manager.py, batch_operations.py) against its
specification.

The relational store is embedded as a record of lists, one list per table.
SQL aggregation becomes list filtering and summation over `Rat` (Python
floats are modeled as exact rationals).  Timestamps are calendar dates; the
`datetime` window comparisons of the source are translated to integer day
numbers via a civil-calendar day count, abstracting the time of day.
Operations that can raise in Python return `Except`.
-/

/-! ## Calendar dates -/

/-- Calendar date, the date part of a `created_at` column value. -/
structure Date where
  y : Nat
  m : Nat
  d : Nat
deriving DecidableEq, Repr

/-- Day number of a civil-calendar date (days since 1970-01-01).  Used to
translate comparisons such as `created_at > datetime(now, -90 days)` into
integer arithmetic on whole days. -/
def Date.days (dt : Date) : Int :=
  let yy := if dt.m ≤ 2 then dt.y - 1 else dt.y
  let era := yy / 400
  let yoe := yy - era * 400
  let mp := if 2 < dt.m then dt.m - 3 else dt.m + 9
  let doy := (153 * mp + 2) / 5 + dt.d - 1
  let doe := yoe * 365 + yoe / 4 - yoe / 100 + doy
  (((era * 146097 + doe : Nat) : Int)) - 719468

/-- Python `date` comparison, lexicographic on (year, month, day). -/
def Date.le (a b : Date) : Bool :=
  decide (a.y < b.y) ||
    (decide (a.y = b.y) &&
      (decide (a.m < b.m) || (decide (a.m = b.m) && decide (a.d ≤ b.d))))

/-- Gregorian leap-year rule. -/
def isLeap (y : Nat) : Bool :=
  decide (y % 4 = 0) && (decide (y % 100 ≠ 0) || decide (y % 400 = 0))

/-- Number of days in a month of the Gregorian calendar. -/
def daysInMonth (y m : Nat) : Nat :=
  if m = 2 then (if isLeap y then 29 else 28)
  else if m = 4 ∨ m = 6 ∨ m = 9 ∨ m = 11 then 30
  else 31

/-- The date one day earlier, mirroring `some_date - timedelta(days=1)`. -/
def Date.prevDay (dt : Date) : Date :=
  if 1 < dt.d then ⟨dt.y, dt.m, dt.d - 1⟩
  else if 1 < dt.m then ⟨dt.y, dt.m - 1, daysInMonth dt.y (dt.m - 1)⟩
  else ⟨dt.y - 1, 12, 31⟩

/-- The date falls strictly within the trailing 90 days of `today`, the
embedding of `created_at > datetime.now() - timedelta(days=90)` (and of the
SQL form `created_at > datetime(now, -90 days)`) at day granularity. -/
def recentB (today : Date) (d : Date) : Bool :=
  decide (today.days - 90 < d.days)

/-! ## Python string helpers

`str.strip` and `str.lower` from the import code, modeled on the character
list of the string (ASCII case folding, which covers every name the
application stores). -/

/-- ASCII lower-casing of one character. -/
def lowerChar (c : Char) : Char :=
  if 'A' ≤ c ∧ c ≤ 'Z' then Char.ofNat (c.toNat + 32) else c

/-- Python `str.lower` (ASCII range). -/
def asciiLower (s : String) : String := ⟨s.data.map lowerChar⟩

/-- Python whitespace test for `str.strip`. -/
def isSpaceChar (c : Char) : Bool :=
  decide (c = ' ') || decide (c = '\t') || decide (c = '\n') || decide (c = '\r')

/-- Python `str.strip`. -/
def pyStrip (s : String) : String :=
  ⟨((s.data.dropWhile isSpaceChar).reverse.dropWhile isSpaceChar).reverse⟩

/-! ## Data model

One structure per table of `database.py`, keeping the columns the verified
operations read or write.  `quote_number`, `notes` and the audit/preference
tables are never consulted by the verified logic and are omitted. -/

structure Customer where
  id : Nat
  name : String
  email : String
  phone : String
  company : String
deriving DecidableEq, Repr

structure Product where
  id : Nat
  name : String
  price : Rat
deriving DecidableEq, Repr

structure Quote where
  id : Nat
  customer_id : Nat
  status : String
  subtotal : Rat
  tax_rate : Rat
  tax_amount : Rat
  total : Rat
  created : Date
deriving DecidableEq, Repr

structure QuoteItem where
  id : Nat
  quote_id : Nat
  product_id : Nat
  quantity : Int
  unit_price : Rat
  line_total : Rat
deriving DecidableEq, Repr

structure User where
  id : Nat
  role : String
deriving DecidableEq, Repr

/-- An alert row; the interpolated title and message strings are
presentation detail and are not modeled. -/
structure Alert where
  id : Nat
  user_id : Nat
  alert_type : String
  severity : String
deriving DecidableEq, Repr

structure HealthRow where
  customer_id : Nat
  engagement_score : Rat
  spend_score : Rat
  growth_score : Rat
  health_score : Rat
  risk_level : String
deriving DecidableEq, Repr

/-- The relational store.  `next_item_id` and `next_alert_id` stand for the
AUTOINCREMENT counters of the `quote_items` and `alerts` tables. -/
structure DBState where
  customers : List Customer
  products : List Product
  quotes : List Quote
  items : List QuoteItem
  users : List User
  alerts : List Alert
  healthScores : List HealthRow
  next_item_id : Nat
  next_alert_id : Nat
deriving DecidableEq, Repr

/-- Status values counted as realized revenue: `status IN (accepted, sent)`. -/
def isRealized (st : String) : Bool :=
  decide (st = "accepted") || decide (st = "sent")

/-! ## Quote ledger (`database.py`) -/

/-- Rows of `quote_items` belonging to one quote
(`SELECT ... FROM quote_items WHERE quote_id = ?`). -/
def itemsFor (items : List QuoteItem) (qid : Nat) : List QuoteItem :=
  items.filter (fun it => decide (it.quote_id = qid))

/-- `SELECT SUM(line_total) FROM quote_items WHERE quote_id = ?`; the `or 0`
in the source turns the NULL sum of an empty selection into 0, which is the
sum of the empty list here. -/
def lineSum (items : List QuoteItem) (qid : Nat) : Rat :=
  ((itemsFor items qid).map (·.line_total)).sum

/-- `Database._update_quote_totals`: recompute `subtotal`, `tax_amount` and
`total` of one quote from its current items and persist them.  When no quote
row has the given id, `cursor.fetchone()` yields `None` and the subscript
raises `TypeError`; that exception is the `Except.error` case, and it
carries the store as already committed by the caller before the raise (the
callers in `database.py` commit their own INSERT, DELETE or UPDATE before
invoking this helper, so that mutation survives the exception). -/
def update_quote_totals (s : DBState) (qid : Nat) : Except DBState DBState :=
  let subtotal := lineSum s.items qid
  match s.quotes.find? (fun q => decide (q.id = qid)) with
  | none => .error s
  | some q0 =>
    let tax_amount := subtotal * q0.tax_rate
    let total := subtotal + tax_amount
    .ok { s with quotes := s.quotes.map (fun q =>
      if q.id = qid then
        { q with subtotal := subtotal, tax_amount := tax_amount, total := total }
      else q) }

/-- `Database.add_quote_item`: insert the row (with the autoincrement id and
`line_total = quantity * unit_price`, no validation of quantity, product or
quote), then recompute the totals of the named quote.  The INSERT is
committed before the recomputation, so when the quote id does not resolve
the raised `TypeError` leaves the orphan item row persisted (the carried
error state). -/
def add_quote_item (s : DBState) (qid pid : Nat) (quantity : Int)
    (unit_price : Rat) : Except DBState DBState :=
  let line_total := (quantity : Rat) * unit_price
  let s1 := { s with
    items := s.items ++ [⟨s.next_item_id, qid, pid, quantity, unit_price, line_total⟩],
    next_item_id := s.next_item_id + 1 }
  update_quote_totals s1 qid

/-- `Database.delete_quote_item`: `DELETE FROM quote_items WHERE id = ?`
(the quote argument plays no part in the deletion), then recompute the
totals of the quote named by `qid`.  The DELETE is committed before the
recomputation. -/
def delete_quote_item (s : DBState) (item_id qid : Nat) : Except DBState DBState :=
  update_quote_totals
    { s with items := s.items.filter (fun it => decide (¬ it.id = item_id)) } qid

/-- `Database.update_quote_tax`: persist the new rate, then recompute the
totals of the quote.  The rate UPDATE is committed before the
recomputation. -/
def update_quote_tax (s : DBState) (qid : Nat) (rate : Rat) : Except DBState DBState :=
  update_quote_totals
    { s with quotes := s.quotes.map (fun q =>
        if q.id = qid then { q with tax_rate := rate } else q) } qid

/-- One mutation of the quote ledger, as named by the invariant of the
specification: item insertion, item deletion, or tax-rate change. -/
inductive QuoteOp where
  | add (qid pid : Nat) (quantity : Int) (unit_price : Rat)
  | del (item_id qid : Nat)
  | tax (qid : Nat) (rate : Rat)
deriving DecidableEq, Repr

def applyOp (s : DBState) : QuoteOp → Except DBState DBState
  | .add qid pid quantity unit_price => add_quote_item s qid pid quantity unit_price
  | .del item_id qid => delete_quote_item s item_id qid
  | .tax qid rate => update_quote_tax s qid rate

/-- Run a sequence of ledger mutations; a raised exception aborts the
sequence as it would abort the Python caller. -/
def applyOps (s : DBState) : List QuoteOp → Except DBState DBState
  | [] => .ok s
  | op :: ops =>
    match applyOp s op with
    | .error e => .error e
    | .ok s1 => applyOps s1 ops

/-- A deletion names the quote that owns the item it removes (the way every
caller in `app.py` invokes `delete_quote_item`).  Other operations are
unconstrained. -/
def delOwnerOkB (s : DBState) : QuoteOp → Bool
  | .del item_id qid =>
    s.items.all (fun it => decide (it.id = item_id → it.quote_id = qid))
  | _ => true

/-- Every deletion in the sequence, checked against the store state at the
moment it runs, names the quote owning the deleted item. -/
def delsOwnerOkB (s : DBState) : List QuoteOp → Bool
  | [] => true
  | op :: ops =>
    delOwnerOkB s op &&
      (match applyOp s op with
       | .error _ => true
       | .ok s1 => delsOwnerOkB s1 ops)

/-- The specified derived-fields invariant of one quote row:
`subtotal = Σ line_total` over its current items (0 when there are none),
`tax_amount = subtotal * tax_rate`, and `total = subtotal + tax_amount`. -/
def quoteOk (items : List QuoteItem) (q : Quote) : Prop :=
  q.subtotal = lineSum items q.id ∧
    q.tax_amount = q.subtotal * q.tax_rate ∧
    q.total = q.subtotal + q.tax_amount

/-- The invariant holds for every persisted quote row. -/
def totalsInv (s : DBState) : Prop := ∀ q ∈ s.quotes, quoteOk s.items q

/-- The `quotes` table has no duplicate primary keys. -/
def quoteIdsNodup (s : DBState) : Prop := (s.quotes.map (·.id)).Nodup

/-! ## Ledger invariant preservation -/

theorem filter_filter_and {α : Type} (p q : α → Bool) (l : List α) :
    (l.filter p).filter q = l.filter (fun a => p a && q a) := by
  induction l with
  | nil => rfl
  | cons a l ih => by_cases hp : p a <;> by_cases hq : q a <;> simp [hp, hq, ih]

/-- Characterization of a successful `_update_quote_totals` call. -/
theorem update_quote_totals_ok_iff (s : DBState) (qid : Nat) (s' : DBState) :
    update_quote_totals s qid = .ok s' ↔
      ∃ q0, s.quotes.find? (fun q => decide (q.id = qid)) = some q0 ∧
        s' = { s with quotes := s.quotes.map (fun q =>
          if q.id = qid then
            { q with subtotal := lineSum s.items qid,
                     tax_amount := lineSum s.items qid * q0.tax_rate,
                     total := lineSum s.items qid + lineSum s.items qid * q0.tax_rate }
          else q) } := by
  unfold update_quote_totals
  cases hf : s.quotes.find? (fun q => decide (q.id = qid)) with
  | none => simp
  | some q0 => simp [eq_comm]

theorem mem_update_map {l : List Quote} {g : Quote → Quote} {qid : Nat} {q' : Quote}
    (h : q' ∈ l.map (fun q => if q.id = qid then g q else q)) :
    ∃ q ∈ l, q' = if q.id = qid then g q else q := by
  obtain ⟨q, hq, heq⟩ := List.mem_map.1 h
  exact ⟨q, hq, heq.symm⟩

theorem map_update_ids (l : List Quote) (f : Quote → Quote)
    (hf : ∀ q, (f q).id = q.id) :
    (l.map f).map (·.id) = l.map (·.id) := by
  induction l with
  | nil => rfl
  | cons a l ih => simp [hf, ih]

/-- A successful totals recomputation restores the invariant for the target
quote, preserves it for every other quote, keeps the item table and keeps
the primary keys of the quote table. -/
theorem update_quote_totals_pres (s s' : DBState) (qid : Nat)
    (hnd : quoteIdsNodup s)
    (hother : ∀ q ∈ s.quotes, q.id ≠ qid → quoteOk s.items q)
    (h : update_quote_totals s qid = .ok s') :
    quoteIdsNodup s' ∧ totalsInv s' ∧ s'.items = s.items := by
  obtain ⟨q0, hf, rfl⟩ := (update_quote_totals_ok_iff s qid s').1 h
  have hq0mem : q0 ∈ s.quotes := List.mem_of_find?_eq_some hf
  have hq0id : q0.id = qid := by
    have := List.find?_some hf
    simpa using this
  refine ⟨?_, ?_, rfl⟩
  · unfold quoteIdsNodup
    simp only
    rw [map_update_ids]
    · exact hnd
    · intro q
      by_cases h : q.id = qid <;> simp [h]
  · intro q' hq'
    simp only at hq'
    obtain ⟨q, hq, hq'eq⟩ := mem_update_map hq'
    by_cases hid : q.id = qid
    · have hqeq : q = q0 :=
        List.inj_on_of_nodup_map hnd hq hq0mem (by rw [hid, hq0id])
      subst hqeq
      rw [hq'eq, if_pos hid]
      refine ⟨by simp [hid], by simp, by simp⟩
    · rw [hq'eq, if_neg hid]
      exact hother q hq hid

theorem lineSum_append_other (l : List QuoteItem) (it : QuoteItem) (j : Nat)
    (h : it.quote_id ≠ j) : lineSum (l ++ [it]) j = lineSum l j := by
  unfold lineSum itemsFor
  rw [List.filter_append]
  simp [h]

theorem itemsFor_erase_other (items : List QuoteItem) (item_id qid j : Nat)
    (hj : j ≠ qid) (h : ∀ it ∈ items, it.id = item_id → it.quote_id = qid) :
    itemsFor (items.filter (fun it => decide (¬ it.id = item_id))) j =
      itemsFor items j := by
  unfold itemsFor
  rw [filter_filter_and]
  apply List.filter_congr
  intro it hit
  by_cases hq : it.quote_id = j
  · have hid : ¬ it.id = item_id := fun hid => hj ((h it hit hid ▸ hq).symm ▸ rfl)
    simp [hq, hid]
  · simp [hq]

/-- One ledger mutation that completes keeps the quote table free of
duplicate keys and, provided that a deletion names the owning quote,
preserves the totals invariant of every quote. -/
theorem applyOp_pres (s s1 : DBState) (op : QuoteOp)
    (hnd : quoteIdsNodup s) (hinv : totalsInv s) (hd : delOwnerOkB s op = true)
    (hop : applyOp s op = .ok s1) :
    quoteIdsNodup s1 ∧ totalsInv s1 := by
  cases op with
  | add qid pid quantity unit_price =>
    have h := update_quote_totals_pres _ s1 qid (by exact hnd) ?_ hop
    · exact ⟨h.1, h.2.1⟩
    · intro q hq hqid
      have hinvq := hinv q hq
      refine ⟨?_, hinvq.2.1, hinvq.2.2⟩
      simp only
      rw [lineSum_append_other _ _ _ (Ne.symm hqid)]
      exact hinvq.1
  | del item_id qid =>
    have hall : ∀ it ∈ s.items, it.id = item_id → it.quote_id = qid := by
      intro it hit hid
      have := List.all_eq_true.1 hd it hit
      simp only [decide_eq_true_eq] at this
      exact this hid
    have h := update_quote_totals_pres _ s1 qid (by exact hnd) ?_ hop
    · exact ⟨h.1, h.2.1⟩
    · intro q hq hqid
      have hinvq := hinv q hq
      refine ⟨?_, hinvq.2.1, hinvq.2.2⟩
      simp only
      unfold lineSum
      rw [itemsFor_erase_other _ _ _ _ hqid hall]
      exact hinvq.1
  | tax qid rate =>
    have h := update_quote_totals_pres _ s1 qid ?_ ?_ hop
    · exact ⟨h.1, h.2.1⟩
    · unfold quoteIdsNodup
      simp only
      rw [map_update_ids]
      · exact hnd
      · intro q
        by_cases hh : q.id = qid <;> simp [hh]
    · intro q' hq' hqid
      simp only at hq'
      obtain ⟨q, hq, hq'eq⟩ := mem_update_map hq'
      by_cases hid : q.id = qid
      · rw [hq'eq, if_pos hid] at hqid
        exact absurd hid hqid
      · rw [hq'eq, if_neg hid]
        exact hinv q hq

/-- Invariant preservation along a whole mutation sequence. -/
theorem applyOps_pres (ops : List QuoteOp) (s s' : DBState)
    (hnd : quoteIdsNodup s) (hinv : totalsInv s)
    (hdel : delsOwnerOkB s ops = true)
    (h : applyOps s ops = .ok s') : quoteIdsNodup s' ∧ totalsInv s' := by
  induction ops generalizing s with
  | nil =>
    unfold applyOps at h
    cases h
    exact ⟨hnd, hinv⟩
  | cons op ops ih =>
    unfold applyOps at h
    unfold delsOwnerOkB at hdel
    cases hop : applyOp s op with
    | error e => rw [hop] at h; cases h
    | ok s1 =>
      rw [hop] at h hdel
      have hdel' := Bool.and_eq_true_iff.1 hdel
      have hstep := applyOp_pres s s1 op hnd hinv hdel'.1 hop
      exact ih s1 hstep.1 hstep.2 hdel'.2 h

/-! ## Claim C1 -/

/-- C1 (amended): for every quote, after any successfully completed sequence
of line-item insertions (`add_quote_item`), line-item deletions
(`delete_quote_item`) and tax-rate changes (`update_quote_tax`) in which
every deletion passes the id of the quote owning the deleted item, the
persisted fields of every quote satisfy `subtotal` = sum of `line_total`
over its current items (0 if none), `tax_amount = subtotal * tax_rate` and
`total = subtotal + tax_amount`; the fields are recomputed and persisted by
each mutation, never at read time. -/
theorem C1_totals_invariant_preserved (ops : List QuoteOp) (s s' : DBState)
    (hnd : quoteIdsNodup s) (hinv : totalsInv s)
    (hdel : delsOwnerOkB s ops = true)
    (h : applyOps s ops = .ok s') : totalsInv s' :=
  (applyOps_pres ops s s' hnd hinv hdel h).2

/-- Store with two quotes: quote 1 owns item 10 (line total 5), quote 2 has
no items; both quotes satisfy the totals invariant. -/
def c1s0 : DBState :=
  ⟨[], [], [⟨1, 1, "draft", 5, 0, 0, 5, ⟨2026, 1, 1⟩⟩,
            ⟨2, 1, "draft", 0, 0, 0, 0, ⟨2026, 1, 1⟩⟩],
    [⟨10, 1, 1, 1, 5, 5⟩], [], [], [], 11, 1⟩

/-- The same store after `delete_quote_item(10, 2)`: item 10 is gone but the
stored totals of quote 1 still carry the old subtotal 5. -/
def c1s1 : DBState :=
  ⟨[], [], [⟨1, 1, "draft", 5, 0, 0, 5, ⟨2026, 1, 1⟩⟩,
            ⟨2, 1, "draft", 0, 0, 0, 0, ⟨2026, 1, 1⟩⟩],
    [], [], [], [], 11, 1⟩

/-- C1 counterexample: the claim quantifies over every `delete_quote_item`
call, but deleting item 10 (owned by quote 1) while naming quote 2 completes
successfully and leaves quote 1 with a stale subtotal, so the invariant does
not survive an arbitrary operation sequence. -/
theorem C1_counterexample :
    totalsInv c1s0 ∧
    applyOps c1s0 [QuoteOp.del 10 2] = .ok c1s1 ∧
    ¬ totalsInv c1s1 := by
  refine ⟨?_, ?_, ?_⟩
  · norm_num [c1s0, totalsInv, quoteOk, lineSum, itemsFor]
  · norm_num [c1s0, c1s1, applyOps, applyOp, delete_quote_item,
      update_quote_totals, lineSum, itemsFor, List.find?]
  · norm_num [c1s1, totalsInv, quoteOk, lineSum, itemsFor]

/-- Initial store for the C1 witness run: one quote with no items. -/
def c1ws : DBState :=
  ⟨[], [], [⟨1, 1, "draft", 0, 0, 0, 0, ⟨2026, 1, 1⟩⟩], [], [], [], [], 10, 1⟩

/-- Witness run: add an item to quote 1, change the tax rate, delete the
item again, each time naming the owning quote. -/
def c1wOps : List QuoteOp := [QuoteOp.add 1 1 2 5, QuoteOp.tax 1 1, QuoteOp.del 10 1]

/-- Final store of the witness run. -/
def c1ws1 : DBState :=
  ⟨[], [], [⟨1, 1, "draft", 0, 1, 0, 0, ⟨2026, 1, 1⟩⟩], [], [], [], [], 11, 1⟩

/-- C1 witness: a concrete run of the amended theorem. -/
theorem C1_witness : totalsInv c1ws1 :=
  C1_totals_invariant_preserved c1wOps c1ws c1ws1
    (by norm_num [c1ws, quoteIdsNodup])
    (by norm_num [c1ws, totalsInv, quoteOk, lineSum, itemsFor])
    (by norm_num [c1ws, c1wOps, delsOwnerOkB, delOwnerOkB, applyOp,
      add_quote_item, update_quote_tax, delete_quote_item, update_quote_totals,
      lineSum, itemsFor, List.find?])
    (by norm_num [c1ws, c1ws1, c1wOps, applyOps, applyOp,
      add_quote_item, update_quote_tax, delete_quote_item, update_quote_totals,
      lineSum, itemsFor, List.find?])

/-! ## Claim C9 -/

/-- C9: `delete_quote_item(item_id, quote_id)` deletes the row matching
`item_id` alone, regardless of which quote owns it, then recomputes and
persists the totals of the quote named by `quote_id` only: every quote row
with a different id is left byte-for-byte unchanged (hence stale when the
deleted item belonged to it), while the named quote satisfies the totals
invariant afterwards. -/
theorem C9_delete_quote_item_frame (s s' : DBState) (item_id qid : Nat)
    (hnd : quoteIdsNodup s)
    (h : delete_quote_item s item_id qid = .ok s') :
    s'.items = s.items.filter (fun it => decide (¬ it.id = item_id)) ∧
    (∀ q ∈ s.quotes, q.id ≠ qid → q ∈ s'.quotes) ∧
    (∀ q' ∈ s'.quotes, q'.id = qid → quoteOk s'.items q') := by
  unfold delete_quote_item at h
  obtain ⟨q0, hf, rfl⟩ := (update_quote_totals_ok_iff _ qid _).1 h
  have hq0mem : q0 ∈ s.quotes := List.mem_of_find?_eq_some hf
  have hq0id : q0.id = qid := by
    have := List.find?_some hf
    simpa using this
  refine ⟨rfl, ?_, ?_⟩
  · intro q hq hqid
    simp only
    exact List.mem_map.2 ⟨q, hq, by rw [if_neg hqid]⟩
  · intro q' hq' hq'id
    simp only at hq'
    obtain ⟨q, hq, hq'eq⟩ := mem_update_map hq'
    by_cases hid : q.id = qid
    · have hqeq : q = q0 :=
        List.inj_on_of_nodup_map hnd hq hq0mem (by rw [hid, hq0id])
      subst hqeq
      rw [hq'eq, if_pos hid]
      refine ⟨by simp [hid], by simp, by simp⟩
    · rw [hq'eq, if_neg hid] at hq'id
      exact absurd hq'id hid

/-- Store for the C9 witness: item 10 belongs to quote 1; quote 2 exists. -/
def c9s : DBState :=
  ⟨[], [], [⟨1, 1, "draft", 5, 0, 0, 5, ⟨2026, 1, 1⟩⟩,
            ⟨2, 1, "draft", 0, 0, 0, 0, ⟨2026, 1, 1⟩⟩],
    [⟨10, 1, 1, 1, 5, 5⟩], [], [], [], 11, 1⟩

/-- Result of `delete_quote_item(10, 2)` on `c9s`: the item of quote 1 is
gone, quote 2 was recomputed, quote 1 still carries its old totals. -/
def c9s1 : DBState :=
  ⟨[], [], [⟨1, 1, "draft", 5, 0, 0, 5, ⟨2026, 1, 1⟩⟩,
            ⟨2, 1, "draft", 0, 0, 0, 0, ⟨2026, 1, 1⟩⟩],
    [], [], [], [], 11, 1⟩

/-- C9 witness: the frame theorem applied to a cross-quote deletion. -/
theorem C9_witness :
    c9s1.items = c9s.items.filter (fun it => decide (¬ it.id = 10)) ∧
    (∀ q ∈ c9s.quotes, q.id ≠ 2 → q ∈ c9s1.quotes) ∧
    (∀ q' ∈ c9s1.quotes, q'.id = 2 → quoteOk c9s1.items q') :=
  C9_delete_quote_item_frame c9s c9s1 10 2
    (by norm_num [c9s, quoteIdsNodup])
    (by norm_num [c9s, c9s1, delete_quote_item, update_quote_totals,
      lineSum, itemsFor, List.find?])

/-! ## Claim C4 -/

/-- C4 (amended): `add_quote_item` validates nothing.  For any quantity
(including quantity < 1) and any product id (including one that resolves to
no product), it inserts the item row with
`line_total = quantity * unit_price`; when the quote id resolves it
completes successfully and recomputes and persists that quote's `subtotal`,
`tax_amount` and `total`, leaving other quotes unchanged; when the quote id
does not resolve, the totals recomputation raises (a `TypeError`, not a
`NotFound` error) and the persisted store carried by the error already
holds the orphan item row. -/
theorem C4_add_quote_item_behavior (s : DBState) (qid pid : Nat)
    (quantity : Int) (unit_price : Rat) :
    (s.quotes.find? (fun q => decide (q.id = qid)) = none →
      add_quote_item s qid pid quantity unit_price = .error
        { s with
            items := s.items ++
              [⟨s.next_item_id, qid, pid, quantity, unit_price,
                (quantity : Rat) * unit_price⟩],
            next_item_id := s.next_item_id + 1 }) ∧
    (∀ q0, s.quotes.find? (fun q => decide (q.id = qid)) = some q0 →
      ∃ s', add_quote_item s qid pid quantity unit_price = .ok s' ∧
        s'.items = s.items ++
          [⟨s.next_item_id, qid, pid, quantity, unit_price,
            (quantity : Rat) * unit_price⟩] ∧
        (∀ q' ∈ s'.quotes, q'.id = qid →
          q'.subtotal = lineSum s'.items qid ∧
          q'.tax_amount = lineSum s'.items qid * q0.tax_rate ∧
          q'.total = q'.subtotal + q'.tax_amount) ∧
        (∀ q ∈ s.quotes, q.id ≠ qid → q ∈ s'.quotes)) := by
  constructor
  · intro hnone
    unfold add_quote_item update_quote_totals
    simp only
    rw [hnone]
  · intro q0 hsome
    unfold add_quote_item
    refine ⟨_, (update_quote_totals_ok_iff _ qid _).2 ⟨q0, hsome, rfl⟩, rfl, ?_, ?_⟩
    · intro q' hq' hq'id
      simp only at hq'
      obtain ⟨q, hq, hq'eq⟩ := mem_update_map hq'
      by_cases hid : q.id = qid
      · rw [hq'eq, if_pos hid]
        refine ⟨by simp [hid], by simp, by simp⟩
      · rw [hq'eq, if_neg hid] at hq'id
        exact absurd hq'id hid
    · intro q hq hqid
      simp only
      exact List.mem_map.2 ⟨q, hq, by rw [if_neg hqid]⟩

/-- Store for the C4 counterexample: quote 1 exists, product 999 does not. -/
def c4s : DBState :=
  ⟨[], [⟨1, "Widget", 5⟩], [⟨1, 1, "draft", 0, 0, 0, 0, ⟨2026, 1, 1⟩⟩],
    [], [], [], [], 10, 1⟩

/-- Result of `add_quote_item(1, 999, 0, 5)` on `c4s`. -/
def c4s1 : DBState :=
  ⟨[], [⟨1, "Widget", 5⟩], [⟨1, 1, "draft", 0, 0, 0, 0, ⟨2026, 1, 1⟩⟩],
    [⟨10, 1, 999, 0, 5, 0⟩], [], [], [], 11, 1⟩

/-- C4 counterexample: the claim requires `add_quote_item` to fail when
quantity < 1 or when the product id does not resolve; called with quantity 0
and the nonexistent product 999, it completes successfully and persists the
item row. -/
theorem C4_counterexample :
    (∀ p ∈ c4s.products, p.id ≠ 999) ∧
    add_quote_item c4s 1 999 0 5 = .ok c4s1 ∧
    (⟨10, 1, 999, 0, 5, 0⟩ : QuoteItem) ∈ c4s1.items := by
  refine ⟨?_, ?_, ?_⟩
  · norm_num [c4s]
  · norm_num [c4s, c4s1, add_quote_item, update_quote_totals,
      lineSum, itemsFor, List.find?]
  · norm_num [c4s1]

/-- C4 witness: the amended theorem applied to quote 1 of `c4s` (existing
quote, nonexistent product, quantity 0). -/
theorem C4_witness :
    ∃ s', add_quote_item c4s 1 999 0 5 = .ok s' ∧
      s'.items = c4s.items ++ [⟨c4s.next_item_id, 1, 999, 0, 5, (0 : Rat) * 5⟩] ∧
      (∀ q' ∈ s'.quotes, q'.id = 1 →
        q'.subtotal = lineSum s'.items 1 ∧
        q'.tax_amount = lineSum s'.items 1 * (0 : Rat) ∧
        q'.total = q'.subtotal + q'.tax_amount) ∧
      (∀ q ∈ c4s.quotes, q.id ≠ 1 → q ∈ s'.quotes) := by
  have h := (C4_add_quote_item_behavior c4s 1 999 0 5).2
    ⟨1, 1, "draft", 0, 0, 0, 0, ⟨2026, 1, 1⟩⟩
    (by norm_num [c4s, List.find?])
  simpa using h

/-! ## Health scoring (`Database.calculate_customer_health_scores`) -/

/-- Generic shape of membership in a mapped list. -/
theorem mem_map_shape {α : Type} {l : List α} {f : α → α} {x : α}
    (h : x ∈ l.map f) : ∃ a ∈ l, x = f a := by
  obtain ⟨a, ha, heq⟩ := List.mem_map.1 h
  exact ⟨a, ha, heq.symm⟩

/-- The score row computed by `calculate_customer_health_scores`, following
the source expressions line by line. -/
def healthRowComputed (s : DBState) (today : Date) (cid : Nat) : HealthRow :=
  let quote_count := (s.quotes.filter (fun q => decide (q.customer_id = cid))).length
  let engagement_score : Rat := min ((quote_count : Rat) * 20) 100
  let total_spend : Rat :=
    ((s.quotes.filter (fun q =>
      decide (q.customer_id = cid) && isRealized q.status)).map (·.total)).sum
  let spend_score : Rat := min (total_spend / 50000 * 100) 100
  let recent_spend : Rat :=
    ((s.quotes.filter (fun q =>
      decide (q.customer_id = cid) && isRealized q.status &&
        recentB today q.created)).map (·.total)).sum
  let growth_score : Rat := min (recent_spend / (total_spend + 1) * 100) 100
  let health_score : Rat :=
    engagement_score * (3/10) + spend_score * (1/2) + growth_score * (1/5)
  let risk_level : String :=
    if (75 : Rat) ≤ health_score then "LOW"
    else if (50 : Rat) ≤ health_score then "MEDIUM"
    else "HIGH"
  ⟨cid, engagement_score, spend_score, growth_score, health_score, risk_level⟩

/-- `Database.calculate_customer_health_scores`: compute the scores, then
UPDATE the existing row for the customer if one exists, else INSERT. -/
def calculate_customer_health_scores (s : DBState) (today : Date) (cid : Nat) :
    DBState :=
  let row := healthRowComputed s today cid
  if s.healthScores.any (fun r => decide (r.customer_id = cid)) then
    { s with healthScores :=
        s.healthScores.map (fun r => if r.customer_id = cid then row else r) }
  else
    { s with healthScores := s.healthScores ++ [row] }

/-! Specification-side formulas, worded as the claim words them. -/

/-- Quotes of one customer. -/
def customerQuotes (s : DBState) (cid : Nat) : List Quote :=
  s.quotes.filter (fun q => decide (q.customer_id = cid))

/-- Total spend: sum of totals of the customer's quotes with status
accepted or sent. -/
def realizedSpend (s : DBState) (cid : Nat) : Rat :=
  (((customerQuotes s cid).filter (fun q => isRealized q.status)).map
    (·.total)).sum

/-- Recent spend: the part of the realized spend created within the last 90
days. -/
def recentRealizedSpend (s : DBState) (today : Date) (cid : Nat) : Rat :=
  ((((customerQuotes s cid).filter (fun q => isRealized q.status)).filter
      (fun q => recentB today q.created)).map (·.total)).sum

/-- engagement_score = min(quote_count x 20, 100). -/
def engagementSpec (s : DBState) (cid : Nat) : Rat :=
  min (20 * ((customerQuotes s cid).length : Rat)) 100

/-- spend_score = min(total_spend / 50000 x 100, 100). -/
def spendSpec (s : DBState) (cid : Nat) : Rat :=
  min (realizedSpend s cid / 50000 * 100) 100

/-- growth_score = min(recent_spend / (total_spend + 1) x 100, 100). -/
def growthSpec (s : DBState) (today : Date) (cid : Nat) : Rat :=
  min (recentRealizedSpend s today cid / (realizedSpend s cid + 1) * 100) 100

/-- health_score = 0.3 x engagement + 0.5 x spend + 0.2 x growth. -/
def healthSpec (s : DBState) (today : Date) (cid : Nat) : Rat :=
  3/10 * engagementSpec s cid + 1/2 * spendSpec s cid +
    1/5 * growthSpec s today cid

/-- risk_level: LOW when health_score is at least 75, MEDIUM when at least
50, else HIGH. -/
def riskSpec (s : DBState) (today : Date) (cid : Nat) : String :=
  if (75 : Rat) ≤ healthSpec s today cid then "LOW"
  else if (50 : Rat) ≤ healthSpec s today cid then "MEDIUM"
  else "HIGH"

/-- The health row the specification prescribes for a customer. -/
def healthRowSpec (s : DBState) (today : Date) (cid : Nat) : HealthRow :=
  ⟨cid, engagementSpec s cid, spendSpec s cid, growthSpec s today cid,
    healthSpec s today cid, riskSpec s today cid⟩

theorem realizedSpend_eq (s : DBState) (cid : Nat) :
    realizedSpend s cid =
      ((s.quotes.filter (fun q =>
        decide (q.customer_id = cid) && isRealized q.status)).map (·.total)).sum := by
  unfold realizedSpend customerQuotes
  rw [filter_filter_and]

theorem recentRealizedSpend_eq (s : DBState) (today : Date) (cid : Nat) :
    recentRealizedSpend s today cid =
      ((s.quotes.filter (fun q =>
        decide (q.customer_id = cid) && isRealized q.status &&
          recentB today q.created)).map (·.total)).sum := by
  unfold recentRealizedSpend customerQuotes
  rw [filter_filter_and, filter_filter_and]
  congr 1
  congr 1
  apply List.filter_congr
  intro q hq
  exact (Bool.and_assoc _ _ _).symm

/-- The computed row coincides with the specified row. -/
theorem healthRowComputed_eq_spec (s : DBState) (today : Date) (cid : Nat) :
    healthRowComputed s today cid = healthRowSpec s today cid := by
  unfold healthRowComputed healthRowSpec engagementSpec spendSpec growthSpec
    healthSpec riskSpec customerQuotes
  dsimp only
  rw [← realizedSpend_eq, ← recentRealizedSpend_eq]
  simp only [healthSpec, engagementSpec, spendSpec, growthSpec, customerQuotes]
  have hcomm : ∀ x : Rat, min (x * 20) 100 = min (20 * x) 100 := by
    intro x
    rw [mul_comm]
  rw [hcomm]
  have hhealth : ∀ e sp g : Rat,
      e * (3/10) + sp * (1/2) + g * (1/5) = 3/10 * e + 1/2 * sp + 1/5 * g := by
    intro e sp g
    ring
  rw [hhealth]

theorem find?_map_overwrite (l : List HealthRow) (cid : Nat) (row : HealthRow)
    (hrow : row.customer_id = cid)
    (h : l.any (fun r => decide (r.customer_id = cid)) = true) :
    (l.map (fun r => if r.customer_id = cid then row else r)).find?
      (fun r => decide (r.customer_id = cid)) = some row := by
  induction l with
  | nil => simp at h
  | cons a l ih =>
    by_cases ha : a.customer_id = cid
    · simp only [List.map_cons, if_pos ha]
      rw [List.find?_cons_of_pos _ (by simp [hrow])]
    · simp only [List.map_cons, if_neg ha]
      rw [List.find?_cons_of_neg _ (by simp [ha])]
      apply ih
      simpa [List.any_cons, ha] using h

theorem find?_append_all_neg {α : Type} (p : α → Bool) (l1 l2 : List α)
    (h : ∀ a ∈ l1, p a = false) : (l1 ++ l2).find? p = l2.find? p := by
  induction l1 with
  | nil => rfl
  | cons a l ih =>
    rw [List.cons_append, List.find?_cons_of_neg _ (by simp [h a (by simp)])]
    exact ih (fun a ha => h a (by simp [ha]))

/-! ## Claim C2 -/

/-- C2: `calculate_customer_health_scores` computes, for every customer,
engagement_score = min(quote_count x 20, 100), spend_score =
min(total_spend / 50000 x 100, 100) over quotes with status accepted or
sent, growth_score = min(recent_spend / (total_spend + 1) x 100, 100) over
such quotes of the trailing 90 days, health_score = 0.3 x engagement + 0.5 x
spend + 0.2 x growth, and risk_level LOW / MEDIUM / HIGH at the 75 and 50
cutoffs; the result is upserted into the health-score table, overwriting any
prior row of that customer and leaving every other row and table unchanged. -/
theorem C2_health_scores (s : DBState) (today : Date) (cid : Nat) :
    ((calculate_customer_health_scores s today cid).healthScores.find?
      (fun r => decide (r.customer_id = cid))) = some (healthRowSpec s today cid) ∧
    (∀ r ∈ (calculate_customer_health_scores s today cid).healthScores,
      r.customer_id ≠ cid → r ∈ s.healthScores) ∧
    (calculate_customer_health_scores s today cid).customers = s.customers ∧
    (calculate_customer_health_scores s today cid).quotes = s.quotes ∧
    (calculate_customer_health_scores s today cid).items = s.items := by
  unfold calculate_customer_health_scores
  dsimp only
  rw [healthRowComputed_eq_spec]
  by_cases hany : s.healthScores.any (fun r => decide (r.customer_id = cid)) = true
  · rw [if_pos hany]
    refine ⟨?_, ?_, rfl, rfl, rfl⟩
    · exact find?_map_overwrite _ _ _ rfl hany
    · intro r hr hrcid
      simp only at hr
      obtain ⟨a, ha, haeq⟩ := mem_map_shape hr
      by_cases hacid : a.customer_id = cid
      · rw [haeq, if_pos hacid] at hrcid
        exact absurd rfl hrcid
      · rw [haeq, if_neg hacid]
        exact ha
  · rw [if_neg hany]
    have hfalse : s.healthScores.any (fun r => decide (r.customer_id = cid)) = false :=
      Bool.eq_false_iff.mpr hany
    have hall : ∀ a ∈ s.healthScores, (fun r => decide (r.customer_id = cid)) a = false := by
      intro a ha
      simpa using List.any_eq_false.1 hfalse a ha
    refine ⟨?_, ?_, rfl, rfl, rfl⟩
    · rw [find?_append_all_neg _ _ _ hall]
      rw [List.find?_cons_of_pos _ (by simp [healthRowSpec])]
    · intro r hr hrcid
      simp only at hr
      rcases List.mem_append.1 hr with h1 | h2
      · exact h1
      · simp only [List.mem_singleton] at h2
        rw [h2] at hrcid
        exact absurd rfl hrcid

/-! ## Churn prediction (`analytics.py`) -/

/-- Result of `predict_churn_risk`. -/
structure ChurnResult where
  risk : Int
  reason : String
deriving DecidableEq, Repr

/-- `Database.filter_quotes` as invoked by the analytics code, with only the
`customer_id` argument supplied.  The SQL JOIN against `customers` drops
quotes whose customer does not exist; `if customer_id:` makes a customer id
of 0 falsy in Python, so 0 applies no filter.  The ORDER BY clause is
dropped because every modeled caller only aggregates over the result. -/
def filter_quotes (s : DBState) (cid : Nat) : List Quote :=
  s.quotes.filter (fun q =>
    s.customers.any (fun c => decide (c.id = q.customer_id)) &&
      (decide (cid = 0) || decide (q.customer_id = cid)))

/-- `Database.get_customer_by_id`. -/
def get_customer_by_id (s : DBState) (cid : Nat) : Option Customer :=
  s.customers.find? (fun c => decide (c.id = cid))

/-- `Database.get_all_quotes` (no status filter), as called by the alert
and forecast code: the JOIN against `customers` drops quotes of unknown
customers; the ORDER BY clause is dropped because every modeled caller only
counts, groups or sums the rows. -/
def get_all_quotes (s : DBState) : List Quote :=
  s.quotes.filter (fun q => s.customers.any (fun c => decide (c.id = q.customer_id)))

/-- `predict_churn_risk` from `analytics.py`: the fixed rule ladder. -/
def predict_churn_risk (s : DBState) (today : Date) (cid : Nat) : ChurnResult :=
  match get_customer_by_id s cid with
  | none => ⟨0, "Customer not found"⟩
  | some _ =>
    let quotes := filter_quotes s cid
    if quotes.length < 2 then ⟨30, "New customer - limited history"⟩
    else
      let recent_quotes := quotes.filter (fun q => recentB today q.created)
      if recent_quotes.isEmpty then ⟨85, "No activity in 90 days"⟩
      else
        let recent_total := (recent_quotes.map (·.total)).sum
        let all_total := (quotes.map (·.total)).sum
        let tr := recent_total / (all_total + 1)
        if tr < 1/5 then ⟨60, "Declining engagement"⟩
        else if tr < 1/2 then ⟨40, "Moderate activity"⟩
        else ⟨15, "Strong engagement"⟩

/-- The churn rule ladder as the specification words it, over the plain set
of the customer's quotes (no join, no falsy-zero special case). -/
def churnLadder (s : DBState) (today : Date) (cid : Nat) : ChurnResult :=
  let qs := customerQuotes s cid
  if qs.length < 2 then ⟨30, "New customer - limited history"⟩
  else
    let recent_quotes := qs.filter (fun q => recentB today q.created)
    if recent_quotes.isEmpty then ⟨85, "No activity in 90 days"⟩
    else
      let tr := (recent_quotes.map (·.total)).sum / ((qs.map (·.total)).sum + 1)
      if tr < 1/5 then ⟨60, "Declining engagement"⟩
      else if tr < 1/2 then ⟨40, "Moderate activity"⟩
      else ⟨15, "Strong engagement"⟩

/-- Well-formedness the sqlite store guarantees for the `customers` table:
primary keys are unique, and AUTOINCREMENT keys start at 1. -/
def customersWF (s : DBState) : Prop :=
  (s.customers.map (·.id)).Nodup ∧ ∀ c ∈ s.customers, 1 ≤ c.id

theorem filter_quotes_eq_customerQuotes (s : DBState) (c : Customer)
    (hc : c ∈ s.customers) (hid : 1 ≤ c.id) :
    filter_quotes s c.id = customerQuotes s c.id := by
  unfold filter_quotes customerQuotes
  apply List.filter_congr
  intro q hq
  have hz : ¬ (c.id = 0) := by omega
  by_cases hcq : q.customer_id = c.id
  · have hany : s.customers.any (fun cc => decide (cc.id = q.customer_id)) = true :=
      List.any_eq_true.2 ⟨c, hc, by simp [hcq]⟩
    simp only [hany, hcq, hz, Bool.true_and, Bool.false_or, decide_eq_true_eq]
    simp [hz]
    exact ⟨c, hc, rfl⟩
  · simp [hcq, hz]

/-! ## Claim C3 -/

/-- C3: for every existing customer, `predict_churn_risk` returns risk 30
with reason "New customer - limited history" when the customer has fewer
than 2 quotes; otherwise risk 85 ("No activity in 90 days") when no quote
lies in the trailing 90 days; otherwise, with trend ratio = (sum of totals
of quotes in the trailing 90 days) / (sum of totals of all the customer's
quotes + 1), risk 60 ("Declining engagement") below 0.2, risk 40 ("Moderate
activity") below 0.5, and risk 15 ("Strong engagement") otherwise. -/
theorem C3_churn_ladder (s : DBState) (today : Date) (c : Customer)
    (hwf : customersWF s) (hc : c ∈ s.customers) :
    predict_churn_risk s today c.id = churnLadder s today c.id := by
  unfold predict_churn_risk get_customer_by_id
  cases hfind : s.customers.find? (fun cc => decide (cc.id = c.id)) with
  | none =>
    have hnone := List.find?_eq_none.1 hfind c hc
    simp at hnone
  | some c0 =>
    rw [filter_quotes_eq_customerQuotes s c hc (hwf.2 c hc)]
    rfl

/-- Store for the C3 witness: one customer with a single quote. -/
def c3ws : DBState :=
  ⟨[⟨1, "Acme", "a@x", "", ""⟩], [],
    [⟨1, 1, "draft", 0, 0, 0, 0, ⟨2026, 9, 1⟩⟩], [], [], [], [], 1, 1⟩

/-- C3 witness: the ladder theorem applied to customer 1 of `c3ws`, whose
single quote puts it in the limited-history branch. -/
theorem C3_witness :
    predict_churn_risk c3ws ⟨2026, 10, 12⟩ 1 = ⟨30, "New customer - limited history"⟩ := by
  have h := C3_churn_ladder c3ws ⟨2026, 10, 12⟩ ⟨1, "Acme", "a@x", "", ""⟩
    ⟨by decide, by decide⟩ (by decide)
  rw [h]
  norm_num [churnLadder, customerQuotes, c3ws]

/-! ## Claim C10 -/

/-- C10: when the customer id does not resolve, `predict_churn_risk` returns
risk 0 with reason "Customer not found" instead of raising, and 0 is lower
than the risk of any existing customer, whose ladder never goes below 15. -/
theorem C10_churn_not_found (s : DBState) (today : Date) (cid : Nat)
    (h : s.customers.find? (fun cc => decide (cc.id = cid)) = none) :
    predict_churn_risk s today cid = ⟨0, "Customer not found"⟩ ∧
    ∀ c ∈ s.customers, 15 ≤ (predict_churn_risk s today c.id).risk := by
  constructor
  · unfold predict_churn_risk get_customer_by_id
    rw [h]
  · intro c hc
    unfold predict_churn_risk get_customer_by_id
    cases hfind : s.customers.find? (fun cc => decide (cc.id = c.id)) with
    | none =>
      have hnone := List.find?_eq_none.1 hfind c hc
      simp at hnone
    | some c0 =>
      dsimp only
      split_ifs <;> norm_num

/-- Store for the C10 witness: customer 1 exists, customer 7 does not. -/
def c10ws : DBState :=
  ⟨[⟨1, "Acme", "a@x", "", ""⟩], [],
    [⟨1, 1, "draft", 0, 0, 0, 0, ⟨2026, 9, 1⟩⟩], [], [], [], [], 1, 1⟩

/-- C10 witness: the not-found theorem applied to the unknown id 7. -/
theorem C10_witness :
    predict_churn_risk c10ws ⟨2026, 10, 12⟩ 7 = ⟨0, "Customer not found"⟩ ∧
    ∀ c ∈ c10ws.customers, 15 ≤ (predict_churn_risk c10ws ⟨2026, 10, 12⟩ c.id).risk :=
  C10_churn_not_found c10ws ⟨2026, 10, 12⟩ 7 (by decide)

/-! ## Customer segmentation (`ml_quickstart.py`, `QuickSegmentation`) -/

/-- The four buckets returned by `segment_all`. -/
structure Segments where
  vip : List Nat
  growth : List Nat
  active : List Nat
  inactive : List Nat
deriving DecidableEq, Repr

/-- The bucket chosen for one customer by the ladder in `segment_all`:
no quotes puts the customer straight into Inactive, otherwise lifetime
realized value, acceptance rate and trailing-90-day activity drive the
VIP / Growth / Active / Inactive chain. -/
def bucketOf (s : DBState) (today : Date) (c : Customer) : String :=
  let quotes := filter_quotes s c.id
  if quotes.isEmpty then "Inactive"
  else
    let ltv := ((quotes.filter (fun q => isRealized q.status)).map (·.total)).sum
    let accepted := (quotes.filter (fun q => decide (q.status = "accepted"))).length
    let acceptance_rate : Rat := (accepted : Rat) / (quotes.length : Rat)
    let recent := (quotes.filter (fun q => recentB today q.created)).length
    if 100000 < ltv ∧ (3/5 : Rat) < acceptance_rate then "VIP"
    else if 20000 < ltv ∧ 0 < recent then "Growth"
    else if 0 < recent then "Active"
    else "Inactive"

/-- Append a customer id to the bucket named by the segment string (the
four `segments[...].append` branches of the loop body). -/
def pushSeg (segs : Segments) (name : String) (cid : Nat) : Segments :=
  if name = "VIP" then { segs with vip := segs.vip ++ [cid] }
  else if name = "Growth" then { segs with growth := segs.growth ++ [cid] }
  else if name = "Active" then { segs with active := segs.active ++ [cid] }
  else { segs with inactive := segs.inactive ++ [cid] }

/-- `QuickSegmentation.segment_all`: one pass over the customers, pushing
each id into the single bucket its ladder selects. -/
def segment_all (s : DBState) (today : Date) : Segments :=
  s.customers.foldl (fun segs c => pushSeg segs (bucketOf s today c) c.id)
    ⟨[], [], [], []⟩

/-- Acceptance rate of a customer: accepted quotes over all quotes. -/
def acceptanceRate (s : DBState) (cid : Nat) : Rat :=
  ((((customerQuotes s cid).filter (fun q => decide (q.status = "accepted"))).length : Nat) : Rat) /
    (((customerQuotes s cid).length : Nat) : Rat)

/-- At least one quote of the customer was created in the trailing 90 days. -/
def hasRecent (s : DBState) (today : Date) (cid : Nat) : Prop :=
  ∃ q ∈ customerQuotes s cid, recentB today q.created = true

instance (s : DBState) (today : Date) (cid : Nat) :
    Decidable (hasRecent s today cid) := by
  unfold hasRecent
  infer_instance

/-- The segment the specification prescribes: VIP when lifetime realized
value exceeds 100000 and the acceptance rate exceeds 0.6; else Growth when
lifetime realized value exceeds 20000 and a quote falls in the trailing 90
days; else Active when a quote falls in the trailing 90 days; else
Inactive. -/
def segmentSpec (s : DBState) (today : Date) (cid : Nat) : String :=
  if 100000 < realizedSpend s cid ∧ (3/5 : Rat) < acceptanceRate s cid then "VIP"
  else if 20000 < realizedSpend s cid ∧ hasRecent s today cid then "Growth"
  else if hasRecent s today cid then "Active"
  else "Inactive"

theorem length_filter_pos_iff {α : Type} (p : α → Bool) (l : List α) :
    0 < (l.filter p).length ↔ ∃ a ∈ l, p a = true := by
  constructor
  · intro h
    obtain ⟨a, ha⟩ := List.exists_mem_of_length_pos h
    exact ⟨a, (List.mem_filter.1 ha).1, (List.mem_filter.1 ha).2⟩
  · rintro ⟨a, ha, hpa⟩
    exact List.length_pos.2 (List.ne_nil_of_mem (List.mem_filter.2 ⟨ha, hpa⟩))

/-- The code ladder computes the specified segment. -/
theorem bucketOf_eq_segmentSpec (s : DBState) (today : Date) (c : Customer)
    (hwf : customersWF s) (hc : c ∈ s.customers) :
    bucketOf s today c = segmentSpec s today c.id := by
  unfold bucketOf segmentSpec
  rw [filter_quotes_eq_customerQuotes s c hc (hwf.2 c hc)]
  by_cases hempty : (customerQuotes s c.id).isEmpty
  · have hnil : customerQuotes s c.id = [] := by
      simpa [List.isEmpty_iff] using hempty
    have h1 : realizedSpend s c.id = 0 := by
      unfold realizedSpend
      rw [hnil]
      simp
    have h2 : ¬ hasRecent s today c.id := by
      unfold hasRecent
      rw [hnil]
      simp
    have h3 : ¬ (100000 < realizedSpend s c.id ∧ (3/5 : Rat) < acceptanceRate s c.id) := by
      rintro ⟨hlt, -⟩
      rw [h1] at hlt
      norm_num at hlt
    have h4 : ¬ (20000 < realizedSpend s c.id ∧ hasRecent s today c.id) :=
      fun hcontra => h2 hcontra.2
    rw [if_pos hempty, if_neg h3, if_neg h4, if_neg h2]
  · rw [if_neg hempty]
    have hrec :
        (0 < ((customerQuotes s c.id).filter (fun q => recentB today q.created)).length) ↔
          hasRecent s today c.id := by
      unfold hasRecent
      exact length_filter_pos_iff _ _
    unfold realizedSpend acceptanceRate
    simp only [hrec]

/-- The `vip` field of `pushSeg`. -/
theorem pushSeg_vip (segs : Segments) (name : String) (cid : Nat) :
    (pushSeg segs name cid).vip =
      if name = "VIP" then segs.vip ++ [cid] else segs.vip := by
  unfold pushSeg
  split_ifs with h1 h2 h3 <;> rfl

theorem pushSeg_growth (segs : Segments) (name : String) (cid : Nat) :
    (pushSeg segs name cid).growth =
      if name = "Growth" then segs.growth ++ [cid] else segs.growth := by
  unfold pushSeg
  split_ifs <;> simp_all

theorem pushSeg_active (segs : Segments) (name : String) (cid : Nat) :
    (pushSeg segs name cid).active =
      if name = "Active" then segs.active ++ [cid] else segs.active := by
  unfold pushSeg
  split_ifs <;> simp_all

theorem pushSeg_inactive (segs : Segments) (name : String) (cid : Nat) :
    (pushSeg segs name cid).inactive =
      if name = "VIP" ∨ name = "Growth" ∨ name = "Active" then segs.inactive
      else segs.inactive ++ [cid] := by
  unfold pushSeg
  split_ifs <;> simp_all

/-- Every ladder outcome is one of the four segment names. -/
theorem bucketOf_mem_names (s : DBState) (today : Date) (c : Customer) :
    bucketOf s today c = "VIP" ∨ bucketOf s today c = "Growth" ∨
      bucketOf s today c = "Active" ∨ bucketOf s today c = "Inactive" := by
  unfold bucketOf
  dsimp only
  split_ifs <;> simp

/-- Membership in one bucket after the fold, for any selector that grows by
exactly the ids whose ladder outcome equals its name. -/
theorem segment_fold_mem (s : DBState) (today : Date) (P : Segments → List Nat)
    (nm : String)
    (hpush : ∀ segs (c : Customer),
      P (pushSeg segs (bucketOf s today c) c.id) =
        if bucketOf s today c = nm then P segs ++ [c.id] else P segs) :
    ∀ (cs : List Customer) (segs : Segments) (x : Nat),
      (x ∈ P (cs.foldl (fun segs c => pushSeg segs (bucketOf s today c) c.id) segs) ↔
        x ∈ P segs ∨ ∃ c ∈ cs, c.id = x ∧ bucketOf s today c = nm) := by
  intro cs
  induction cs with
  | nil =>
    intro segs x
    simp
  | cons c cs ih =>
    intro segs x
    rw [List.foldl_cons, ih]
    by_cases hb : bucketOf s today c = nm
    · rw [hpush, if_pos hb]
      simp only [List.mem_append, List.mem_cons, List.not_mem_nil, or_false]
      constructor
      · rintro ((h | rfl) | ⟨c', hc', rfl, hbc⟩)
        · exact Or.inl h
        · exact Or.inr ⟨c, Or.inl rfl, rfl, hb⟩
        · exact Or.inr ⟨c', Or.inr hc', rfl, hbc⟩
      · rintro (h | ⟨c', hc', rfl, hbc⟩)
        · exact Or.inl (Or.inl h)
        · rcases hc' with rfl | hc''
          · exact Or.inl (Or.inr rfl)
          · exact Or.inr ⟨c', hc'', rfl, hbc⟩
    · rw [hpush, if_neg hb]
      simp only [List.mem_cons]
      constructor
      · rintro (h | ⟨c', hc', rfl, hbc⟩)
        · exact Or.inl h
        · exact Or.inr ⟨c', Or.inr hc', rfl, hbc⟩
      · rintro (h | ⟨c', hc', rfl, hbc⟩)
        · exact Or.inl h
        · rcases hc' with rfl | hc''
          · exact absurd hbc hb
          · exact Or.inr ⟨c', hc'', rfl, hbc⟩

/-! ## Claim C6 -/

/-- C6: `segment_all` places every customer in exactly one of the four
buckets, chosen in priority order: VIP when lifetime realized value exceeds
100000 and the acceptance rate exceeds 0.6; else Growth when lifetime
realized value exceeds 20000 and some quote lies in the trailing 90 days;
else Active when some quote lies in the trailing 90 days; else Inactive.
A customer meeting both the VIP and the Growth criteria lands in VIP. -/
theorem C6_segment_buckets (s : DBState) (today : Date) (c : Customer)
    (hwf : customersWF s) (hc : c ∈ s.customers) :
    ((100000 < realizedSpend s c.id ∧ (3/5 : Rat) < acceptanceRate s c.id) →
      segmentSpec s today c.id = "VIP") ∧
    (c.id ∈ (segment_all s today).vip ↔ segmentSpec s today c.id = "VIP") ∧
    (c.id ∈ (segment_all s today).growth ↔ segmentSpec s today c.id = "Growth") ∧
    (c.id ∈ (segment_all s today).active ↔ segmentSpec s today c.id = "Active") ∧
    (c.id ∈ (segment_all s today).inactive ↔ segmentSpec s today c.id = "Inactive") := by
  have hmem : ∀ (P : Segments → List Nat) (nm : String),
      (∀ segs (cc : Customer), P (pushSeg segs (bucketOf s today cc) cc.id) =
        if bucketOf s today cc = nm then P segs ++ [cc.id] else P segs) →
      P ⟨[], [], [], []⟩ = [] →
      (c.id ∈ P (segment_all s today) ↔ segmentSpec s today c.id = nm) := by
    intro P nm hpush hP0
    unfold segment_all
    rw [segment_fold_mem s today P nm hpush s.customers ⟨[], [], [], []⟩ c.id]
    rw [hP0]
    constructor
    · rintro (h | ⟨c', hc', hcid, hbc⟩)
      · simp at h
      · have hceq : c' = c := List.inj_on_of_nodup_map hwf.1 hc' hc hcid
        rw [← bucketOf_eq_segmentSpec s today c hwf hc, ← hceq]
        exact hbc
    · intro hspec
      exact Or.inr ⟨c, hc, rfl, by
        rw [bucketOf_eq_segmentSpec s today c hwf hc]
        exact hspec⟩
  have hpush_inactive : ∀ segs (cc : Customer),
      (pushSeg segs (bucketOf s today cc) cc.id).inactive =
        if bucketOf s today cc = "Inactive" then segs.inactive ++ [cc.id]
        else segs.inactive := by
    intro segs cc
    rw [pushSeg_inactive]
    rcases bucketOf_mem_names s today cc with h | h | h | h <;> rw [h] <;> simp
  refine ⟨?_, ?_, ?_, ?_, ?_⟩
  · intro hcond
    unfold segmentSpec
    rw [if_pos hcond]
  · exact hmem (fun segs => segs.vip) "VIP"
      (fun segs cc => pushSeg_vip segs (bucketOf s today cc) cc.id) rfl
  · exact hmem (fun segs => segs.growth) "Growth"
      (fun segs cc => pushSeg_growth segs (bucketOf s today cc) cc.id) rfl
  · exact hmem (fun segs => segs.active) "Active"
      (fun segs cc => pushSeg_active segs (bucketOf s today cc) cc.id) rfl
  · exact hmem (fun segs => segs.inactive) "Inactive" hpush_inactive rfl

/-- Store for the C6 witness: customer 1 has two accepted quotes worth
150000 in total (acceptance rate 1), one of them inside the trailing 90
days, so the VIP and the Growth criteria hold simultaneously. -/
def c6ws : DBState :=
  ⟨[⟨1, "Acme", "a@x", "", ""⟩], [],
    [⟨1, 1, "accepted", 80000, 0, 0, 80000, ⟨2026, 10, 1⟩⟩,
     ⟨2, 1, "accepted", 70000, 0, 0, 70000, ⟨2026, 1, 1⟩⟩],
    [], [], [], [], 1, 1⟩

/-- C6 witness: customer 1 of `c6ws` satisfies both the VIP and the Growth
criteria and the segmentation places it in the VIP bucket. -/
theorem C6_witness :
    (100000 < realizedSpend c6ws 1 ∧ (3/5 : Rat) < acceptanceRate c6ws 1) ∧
    (20000 < realizedSpend c6ws 1 ∧ hasRecent c6ws ⟨2026, 10, 12⟩ 1) ∧
    (1 : Nat) ∈ (segment_all c6ws ⟨2026, 10, 12⟩).vip := by
  have h := C6_segment_buckets c6ws ⟨2026, 10, 12⟩ ⟨1, "Acme", "a@x", "", ""⟩
    ⟨by decide, by decide⟩ (by decide)
  have hval : realizedSpend c6ws 1 = 150000 := by
    norm_num [realizedSpend, customerQuotes, c6ws, isRealized, List.filter]
  have har : acceptanceRate c6ws 1 = 1 := by
    norm_num [acceptanceRate, customerQuotes, c6ws, List.filter]
  have hrecent : hasRecent c6ws ⟨2026, 10, 12⟩ 1 := by
    refine ⟨⟨1, 1, "accepted", 80000, 0, 0, 80000, ⟨2026, 10, 1⟩⟩, ?_, ?_⟩
    · norm_num [customerQuotes, c6ws, List.filter]
    · decide
  refine ⟨⟨by rw [hval]; norm_num, by rw [har]; norm_num⟩,
    ⟨by rw [hval]; norm_num, hrecent⟩, ?_⟩
  exact h.2.1.mpr (by
    unfold segmentSpec
    rw [if_pos ⟨by rw [hval]; norm_num, by rw [har]; norm_num⟩])

/-! ## Revenue-drop alert (`alerts_manager.py`) -/

/-- `Database.create_alert`: insert an alert row with the autoincrement id
and return the id. -/
def create_alert (s : DBState) (uid : Nat) (atype sev : String) : DBState × Nat :=
  let aid := s.next_alert_id
  ({ s with
      alerts := s.alerts ++ [⟨aid, uid, atype, sev⟩],
      next_alert_id := aid + 1 }, aid)

/-- Realized revenue since the first of the current calendar month of
`today` (the `this_month_value` sum of `check_revenue_drop`, taken over
`db.get_all_quotes()`, hence over the customers join). -/
def thisMonthRevenue (s : DBState) (today : Date) : Rat :=
  (((get_all_quotes s).filter (fun q =>
    isRealized q.status && Date.le ⟨today.y, today.m, 1⟩ q.created)).map (·.total)).sum

/-- Realized revenue of the previous calendar month (the `last_month_value`
sum of `check_revenue_drop`: last month day 1 up to the day before the first
of the current month, taken over `db.get_all_quotes()`, hence over the
customers join). -/
def lastMonthRevenue (s : DBState) (today : Date) : Rat :=
  let lme := Date.prevDay ⟨today.y, today.m, 1⟩
  let lms : Date := ⟨lme.y, lme.m, 1⟩
  (((get_all_quotes s).filter (fun q =>
    isRealized q.status && Date.le lms q.created && Date.le q.created lme)).map
      (·.total)).sum

/-- The admin and manager users, in table order. -/
def adminManagers (s : DBState) : List User :=
  s.users.filter (fun u => decide (u.role = "admin") || decide (u.role = "manager"))

/-- One `revenue_drop` alert per listed user, ids counting up from `n`. -/
def mkDropAlerts : List User → Nat → List Alert
  | [], _ => []
  | u :: us, n => ⟨n, u.id, "revenue_drop", "warning"⟩ :: mkDropAlerts us (n + 1)

/-- `AlertManager.check_revenue_drop`: bail out when `db.get_all_quotes()`
returns fewer than 2 rows; compare the calendar months; when last month was
positive and the percentage drop exceeds the threshold, loop over all users
creating one warning alert per admin or manager.  Returns the new store and
the created alert ids. -/
def check_revenue_drop (s : DBState) (today : Date) (threshold : Rat) :
    DBState × List Nat :=
  if (get_all_quotes s).length < 2 then (s, [])
  else
    let this_month_value := thisMonthRevenue s today
    let last_month_value := lastMonthRevenue s today
    if 0 < last_month_value then
      let drop_percent := (last_month_value - this_month_value) / last_month_value * 100
      if threshold < drop_percent then
        s.users.foldl (fun acc u =>
          if u.role = "admin" ∨ u.role = "manager" then
            let r := create_alert acc.1 u.id "revenue_drop" "warning"
            (r.1, acc.2 ++ [r.2])
          else acc) (s, [])
      else (s, [])
    else (s, [])

/-- Closed form of the alert-creation loop of `check_revenue_drop`. -/
theorem drop_fold (us : List User) (s0 : DBState) (acc : List Nat) :
    us.foldl (fun acc u =>
      if u.role = "admin" ∨ u.role = "manager" then
        let r := create_alert acc.1 u.id "revenue_drop" "warning"
        (r.1, acc.2 ++ [r.2])
      else acc) (s0, acc) =
    ({ s0 with
        alerts := s0.alerts ++ mkDropAlerts
          (us.filter (fun u => decide (u.role = "admin") || decide (u.role = "manager")))
          s0.next_alert_id,
        next_alert_id := s0.next_alert_id +
          (us.filter (fun u => decide (u.role = "admin") || decide (u.role = "manager"))).length },
      acc ++ List.range' s0.next_alert_id
        (us.filter (fun u => decide (u.role = "admin") || decide (u.role = "manager"))).length) := by
  induction us generalizing s0 acc with
  | nil =>
    cases s0
    simp [mkDropAlerts]
  | cons u us ih =>
    by_cases hu : u.role = "admin" ∨ u.role = "manager"
    · have hfc : (u :: us).filter
          (fun u : User => decide (u.role = "admin") || decide (u.role = "manager")) =
          u :: us.filter
            (fun u : User => decide (u.role = "admin") || decide (u.role = "manager")) := by
        rcases hu with h | h <;> simp [List.filter_cons, h]
      rw [List.foldl_cons, if_pos hu]
      dsimp only
      rw [ih, hfc]
      simp only [create_alert, mkDropAlerts, List.length_cons]
      refine congrArg₂ Prod.mk ?_ ?_
      · congr 1 <;> first
          | rfl
          | omega
          | (rw [List.append_assoc]; rfl)
      · rw [List.range'_succ, List.append_assoc]
        rfl
    · have hfc : (u :: us).filter
          (fun u : User => decide (u.role = "admin") || decide (u.role = "manager")) =
          us.filter
            (fun u : User => decide (u.role = "admin") || decide (u.role = "manager")) := by
        have h1 : ¬ u.role = "admin" := fun h => hu (Or.inl h)
        have h2 : ¬ u.role = "manager" := fun h => hu (Or.inr h)
        simp [List.filter_cons, h1, h2]
      rw [List.foldl_cons, if_neg hu, ih, hfc]

/-! ## Claim C7 -/

/-- C7 (amended): `check_revenue_drop` creates no alert whenever last
calendar month had realized revenue 0, regardless of this month; and
provided `get_all_quotes` returns at least 2 rows (quotes whose customer
resolves), when last month was positive
and the percentage drop from last month to this month exceeds the threshold
(default 20), it creates exactly one `revenue_drop` alert per user whose
role is admin or manager. -/
theorem C7_revenue_drop (s : DBState) (today : Date) (threshold : Rat) :
    (lastMonthRevenue s today = 0 →
      check_revenue_drop s today threshold = (s, [])) ∧
    (2 ≤ (get_all_quotes s).length → 0 < lastMonthRevenue s today →
      threshold < (lastMonthRevenue s today - thisMonthRevenue s today) /
        lastMonthRevenue s today * 100 →
      (check_revenue_drop s today threshold).1.alerts =
        s.alerts ++ mkDropAlerts (adminManagers s) s.next_alert_id ∧
      (check_revenue_drop s today threshold).2.length = (adminManagers s).length) := by
  constructor
  · intro h0
    unfold check_revenue_drop
    dsimp only
    by_cases hlen : (get_all_quotes s).length < 2
    · rw [if_pos hlen]
    · rw [if_neg hlen, if_neg (by rw [h0]; norm_num)]
  · intro hlen hpos hdrop
    unfold check_revenue_drop
    dsimp only
    rw [if_neg (by omega), if_pos hpos, if_pos hdrop, drop_fold]
    unfold adminManagers
    constructor
    · rfl
    · simp [List.length_range']

/-- Store for the C7 counterexample: customer 1 with a single accepted
quote of 100 created last month, one admin user, nothing this month. -/
def c7s : DBState :=
  ⟨[⟨1, "Acme", "a@x", "", ""⟩], [],
    [⟨1, 1, "accepted", 100, 0, 0, 100, ⟨2026, 9, 15⟩⟩],
    [], [⟨1, "admin"⟩], [], [], 1, 1⟩

/-- C7 counterexample: with one quote, last month is positive (100), this
month is 0, the drop (100 percent) exceeds the 20 percent threshold, and an
admin exists, yet the under-2-quotes guard returns without creating any
alert, against the claim of one alert per admin or manager. -/
theorem C7_counterexample :
    check_revenue_drop c7s ⟨2026, 10, 12⟩ 20 = (c7s, []) ∧
    0 < lastMonthRevenue c7s ⟨2026, 10, 12⟩ ∧
    (20 : Rat) < (lastMonthRevenue c7s ⟨2026, 10, 12⟩ - thisMonthRevenue c7s ⟨2026, 10, 12⟩) /
      lastMonthRevenue c7s ⟨2026, 10, 12⟩ * 100 ∧
    (adminManagers c7s).length = 1 := by
  have hlast : lastMonthRevenue c7s ⟨2026, 10, 12⟩ = 100 := by
    norm_num [lastMonthRevenue, get_all_quotes, c7s, isRealized, Date.le,
      Date.prevDay, daysInMonth, isLeap, List.filter, List.any]
  have hthis : thisMonthRevenue c7s ⟨2026, 10, 12⟩ = 0 := by
    norm_num [thisMonthRevenue, get_all_quotes, c7s, isRealized, Date.le,
      List.filter, List.any]
  refine ⟨?_, ?_, ?_, ?_⟩
  · norm_num [check_revenue_drop, get_all_quotes, c7s, List.filter, List.any]
  · rw [hlast]
    norm_num
  · rw [hlast, hthis]
    norm_num
  · norm_num [adminManagers, c7s, List.filter]

/-- Store for the C7 witness: customer 1 with two accepted quotes (100 and
50) created last month, one admin and one sales rep, nothing this month. -/
def c7ws : DBState :=
  ⟨[⟨1, "Acme", "a@x", "", ""⟩], [],
    [⟨1, 1, "accepted", 100, 0, 0, 100, ⟨2026, 9, 15⟩⟩,
     ⟨2, 1, "accepted", 50, 0, 0, 50, ⟨2026, 9, 20⟩⟩],
    [], [⟨1, "admin"⟩, ⟨2, "sales_rep"⟩], [], [], 1, 1⟩

/-- C7 witness: the amended theorem applied to `c7ws`, whose one admin user
receives the single created alert. -/
theorem C7_witness :
    (check_revenue_drop c7ws ⟨2026, 10, 12⟩ 20).1.alerts =
      c7ws.alerts ++ mkDropAlerts (adminManagers c7ws) c7ws.next_alert_id ∧
    (check_revenue_drop c7ws ⟨2026, 10, 12⟩ 20).2.length = (adminManagers c7ws).length :=
  (C7_revenue_drop c7ws ⟨2026, 10, 12⟩ 20).2
    (by norm_num [get_all_quotes, c7ws, List.filter, List.any])
    (by norm_num [lastMonthRevenue, get_all_quotes, c7ws, isRealized, Date.le,
      Date.prevDay, daysInMonth, isLeap, List.filter, List.any])
    (by norm_num [lastMonthRevenue, thisMonthRevenue, get_all_quotes, c7ws,
      isRealized, Date.le, Date.prevDay, daysInMonth, isLeap, List.filter,
      List.any])

/-! ## Revenue forecast (`analytics.py`, `forecast_revenue`) -/

/-- Result record of `forecast_revenue`. -/
structure ForecastResult where
  forecast : Rat
  daily_average : Rat
  confidence : String
  trend : String
deriving DecidableEq, Repr

/-- The distinct creation dates carrying realized revenue (the keys of the
`daily_revenue` dict: one per distinct date among accepted or sent
quotes). -/
def realizedDates (qs : List Quote) : List Date :=
  ((qs.filter (fun q => isRealized q.status)).map (·.created)).dedup

/-- Realized revenue of one creation date (the value stored under that key
in the `daily_revenue` dict). -/
def dailyRevenue (qs : List Quote) (d : Date) : Rat :=
  ((qs.filter (fun q => isRealized q.status && decide (q.created = d))).map
    (·.total)).sum

/-- Insertion into a date list sorted by the civil day number (the embedding
of `sorted(daily_revenue.keys())`). -/
def insertSortedDate (x : Date) : List Date → List Date
  | [] => [x]
  | y :: ys => if x.days ≤ y.days then x :: y :: ys else y :: insertSortedDate x ys

/-- Insertion sort of the distinct dates. -/
def sortDates (l : List Date) : List Date := l.foldr insertSortedDate []

/-- The insufficient-data result:
forecast 0, daily_average 0, confidence Low, trend Unknown. -/
def insufficientForecast : ForecastResult := ⟨0, 0, "Low", "Unknown"⟩

/-- `forecast_revenue(days)`: below 5 quotes in total, or below 5 distinct
realized-revenue days, return the insufficient-data result; otherwise fit an
ordinary least-squares line to the daily series (the closed form of the
sklearn `LinearRegression` fit), extrapolate `days` points, floor the summed
forecast at 0, and classify confidence by the R-squared score and trend by
the slope sign. -/
def forecast_revenue (s : DBState) (days : Nat) : ForecastResult :=
  let quotes := get_all_quotes s
  if quotes.length < 5 then insufficientForecast
  else
    let dates := realizedDates quotes
    if dates.length < 5 then insufficientForecast
    else
      let revenues := (sortDates dates).map (dailyRevenue quotes)
      let n : Nat := revenues.length
      let xs : List Rat := (List.range n).map (fun i => (i : Rat))
      let xbar := xs.sum / (n : Rat)
      let ybar := revenues.sum / (n : Rat)
      let sxx := (xs.map (fun x => (x - xbar) * (x - xbar))).sum
      let sxy := ((xs.zip revenues).map (fun p => (p.1 - xbar) * (p.2 - ybar))).sum
      let slope := sxy / sxx
      let intercept := ybar - slope * xbar
      let preds := (List.range days).map (fun i => slope * (((n + i : Nat) : Rat)) + intercept)
      let total_forecast := max 0 preds.sum
      let daily_avg := total_forecast / (days : Rat)
      let ss_res := ((xs.zip revenues).map
        (fun p => (p.2 - (slope * p.1 + intercept)) * (p.2 - (slope * p.1 + intercept)))).sum
      let ss_tot := (revenues.map (fun v => (v - ybar) * (v - ybar))).sum
      let score := 1 - ss_res / ss_tot
      let confidence :=
        if (7/10 : Rat) < score then "High"
        else if (3/10 : Rat) < score then "Medium"
        else "Low"
      ⟨total_forecast, daily_avg, confidence, if 0 < slope then "Positive" else "Negative"⟩

/-! ## Claim C8 -/

/-- C8: `forecast_revenue` returns the insufficient-data result
{forecast 0, daily_average 0, confidence Low, trend Unknown} exactly when
there are fewer than 5 quotes in total or fewer than 5 distinct days
carrying realized revenue; only with both minimums met does it fit and
extrapolate the least-squares line (whose result always carries trend
Positive or Negative, never Unknown). -/
theorem C8_forecast_minimums (s : DBState) (days : Nat) :
    (forecast_revenue s days = insufficientForecast ↔
      ((get_all_quotes s).length < 5 ∨ (realizedDates (get_all_quotes s)).length < 5)) := by
  unfold forecast_revenue
  dsimp only
  by_cases h1 : (get_all_quotes s).length < 5
  · rw [if_pos h1]
    simp [h1]
  · rw [if_neg h1]
    by_cases h2 : (realizedDates (get_all_quotes s)).length < 5
    · rw [if_pos h2]
      simp [h1, h2]
    · rw [if_neg h2]
      simp only [h1, h2, or_self, iff_false]
      intro hcontra
      have htrend := congrArg ForecastResult.trend hcontra
      dsimp only [insufficientForecast] at htrend
      split_ifs at htrend <;> simp at htrend

/-! ## Batch customer import (`batch_operations.py`) -/

/-- One parsed CSV row of the customer import (the `name`, `email`,
optional `phone` and `company` columns; the pandas CSV parsing itself is
outside the verified core). -/
structure CsvCustomerRow where
  name : String
  email : String
  phone : String
  company : String
deriving DecidableEq, Repr

/-- The call `db.create_customer(...)` made by
`batch_create_customers_from_csv`.  The `Database` class of `database.py`
defines `add_customer` but no method named `create_customer`, so this call
raises `AttributeError` at run time before touching the store; the per-row
handler catches it and records `str(e)`.  The embedding therefore always
fails with that message and leaves the store unchanged. -/
def db_create_customer_call (_s : DBState)
    (_name _email _phone _company : String) : Except String DBState :=
  .error "\x27Database\x27 object has no attribute \x27create_customer\x27"

/-- The position tag `Row (idx + 2)` prefixed to a row error; `idx` is the
0-based data-row index and the +2 accounts for the header line. -/
def rowError (i : Nat) (msg : String) : String :=
  "Row " ++ toString (i + 2) ++ ": " ++ msg

/-- One iteration of the import loop: require name and email, reject a
case-insensitive duplicate of an existing customer, otherwise attempt the
creation call; `acc` carries (success_count, errors). -/
def processCustomerRow (s : DBState) (acc : Nat × List String)
    (p : Nat × CsvCustomerRow) : Nat × List String :=
  let name := pyStrip p.2.name
  let email := pyStrip p.2.email
  if name = "" ∨ email = "" then
    (acc.1, acc.2 ++ [rowError p.1 "Name and email required"])
  else if s.customers.any (fun c => decide (asciiLower c.name = asciiLower name)) then
    (acc.1, acc.2 ++ [rowError p.1 ("Customer \x27" ++ name ++ "\x27 already exists")])
  else
    match db_create_customer_call s name email p.2.phone p.2.company with
    | .ok _ => (acc.1 + 1, acc.2)
    | .error e => (acc.1, acc.2 ++ [rowError p.1 e])

/-- `batch_create_customers_from_csv` over parsed rows: fold the per-row
step over the indexed rows, starting from (0, []).  Because the creation
call raises before issuing any SQL, the store seen by every iteration is
the unchanged `s`. -/
def batch_create_customers_from_csv (s : DBState)
    (rows : List CsvCustomerRow) : Nat × List String :=
  rows.enum.foldl (processCustomerRow s) (0, [])

/-! ## Claim C5 -/

/-- Existing customers for the C5 failing input: Acme Corporation exists. -/
def c5db : DBState :=
  ⟨[⟨1, "Acme Corporation", "john@acme.com", "", ""⟩], [], [], [], [], [], [], 1, 1⟩

/-- The three-row customer CSV of the claim, with exactly one duplicate
name (row 3 duplicates the existing Acme Corporation). -/
def c5csv : List CsvCustomerRow :=
  [⟨"Volt Industries", "v@volt.com", "", ""⟩,
   ⟨"Acme Corporation", "a@acme.com", "", ""⟩,
   ⟨"Nimbus Labs", "n@nimbus.com", "", ""⟩]

/-- C5 (code bug): on the three-row CSV with exactly one duplicate the
batch reports success_count 0 - not the claimed 2 - because every
non-duplicate row fails with the `AttributeError` of the nonexistent
`Database.create_customer` method; the duplicate row alone is reported as a
duplicate.  Row isolation itself works: each failing row appends one
position-tagged error and the batch continues. -/
theorem C5_batch_import_attribute_error :
    batch_create_customers_from_csv c5db c5csv =
      (0, ["Row 2: \x27Database\x27 object has no attribute \x27create_customer\x27",
           "Row 3: Customer \x27Acme Corporation\x27 already exists",
           "Row 4: \x27Database\x27 object has no attribute \x27create_customer\x27"]) := by
  decide
